import Mathlib

/-!
Verification of the ksana-vision caption subsystem.

The definitions below are shallow embeddings of the Python sources:
`dual_screen_display.py` (caption buffers and the vertical column layout),
`blip_model.py` (caption generation error handling), `caption_engine.py`
(the capture loop) and `dual_screen_demo.py` / `blip_camera_main.py`
(the entry points).  Captions are modelled as values of an arbitrary type
`α` (strings in the program); machine integers are `Nat`/`Int`.
-/

namespace KsanaVision

/-! ## Caption buffers (`DualScreenDisplay.add_caption`)

The display keeps two caption lists, `window1_captions` (primary) and
`window2_captions` (secondary).  `add_caption` appends to the primary;
if the primary then exceeds `window_capacity` its head (`pop(0)`) is
appended to the secondary, which in turn drops its own head if it also
exceeds the capacity.  `pop(0)` is rendered as `take 1` (the popped
element, as a singleton list) together with `drop 1` (the remainder). -/

/-- State of the two caption buffers: `(window1_captions, window2_captions)`. -/
def BufState (α : Type) : Type := List α × List α

/-- Embedding of `DualScreenDisplay.add_caption` (dual_screen_display.py,
lines 124-143), with `cap` the already-computed `window_capacity`. -/
def add_caption {α : Type} (cap : Nat) (c : α) (s : BufState α) : BufState α :=
  let w1 := s.1 ++ [c]
  if w1.length > cap then
    let overflow := w1.take 1
    let w1' := w1.drop 1
    let w2 := s.2 ++ overflow
    if w2.length > cap then (w1', w2.drop 1) else (w1', w2)
  else (w1, s.2)

/-- Folding `add_caption` over a whole sequence of captions. -/
def addAll {α : Type} (cap : Nat) (cs : List α) (s : BufState α) : BufState α :=
  cs.foldl (fun s c => add_caption cap c s) s

/-- Closed form for the buffer state reached from two empty buffers after
adding the sequence `cs`: the primary holds the last `min |cs| cap`
captions and the secondary holds the `min (|cs| - cap) cap` captions
added just before those. -/
def bufClosedForm {α : Type} (cap : Nat) (cs : List α) : BufState α :=
  (cs.drop (cs.length - cap),
   (cs.take (cs.length - cap)).drop (cs.length - 2 * cap))

theorem addAll_append_singleton {α : Type} (cap : Nat) (cs : List α) (c : α)
    (s : BufState α) :
    addAll cap (cs ++ [c]) s = add_caption cap c (addAll cap cs s) := by
  simp [addAll, List.foldl_append]

theorem add_caption_closedForm {α : Type} (cap : Nat) (hcap : 1 ≤ cap)
    (cs : List α) (c : α) :
    add_caption cap c (bufClosedForm cap cs) = bufClosedForm cap (cs ++ [c]) := by
  rcases Nat.lt_or_ge cs.length cap with hlt | hge
  · -- primary not yet full: plain append, no overflow
    have h1 : cs.length - cap = 0 := Nat.sub_eq_zero_of_le (Nat.le_of_lt hlt)
    have h2 : cs.length + 1 - cap = 0 := Nat.sub_eq_zero_of_le hlt
    simp [add_caption, bufClosedForm, h1, h2, Nat.sub_eq_zero_of_le,
      Nat.le_of_lt hlt, Nat.not_lt.mpr hlt, hlt]
  · -- primary full: head moves to the secondary
    have hne : cs.length - cap < cs.length := by omega
    have hlen1 : (cs.drop (cs.length - cap)).length = cap := by
      simp [List.length_drop]; omega
    have hgt : (cs.drop (cs.length - cap) ++ [c]).length > cap := by
      simp [hlen1]
    have htake : (cs.drop (cs.length - cap) ++ [c]).take 1
        = [cs.get ⟨cs.length - cap, hne⟩] := by
      rw [List.take_append_of_le_length (by omega)]
      rw [List.take_one]
      simp [List.head?_drop, List.getElem?_eq_getElem hne]
    have hdrop : (cs.drop (cs.length - cap) ++ [c]).drop 1
        = cs.drop (cs.length - cap + 1) ++ [c] := by
      rw [List.drop_append_of_le_length (by omega), List.drop_drop]
    simp only [add_caption, bufClosedForm]
    rw [if_pos hgt, htake, hdrop]
    have hlen2 : (cs ++ [c]).length = cs.length + 1 := by simp
    have heq1 : cs.length + 1 - cap = cs.length - cap + 1 := by omega
    have hR1 : List.drop ((cs ++ [c]).length - cap) (cs ++ [c])
        = List.drop (cs.length - cap + 1) cs ++ [c] := by
      rw [hlen2, heq1, List.drop_append_of_le_length (by omega)]
    have hRtake : List.take ((cs ++ [c]).length - cap) (cs ++ [c])
        = List.take (cs.length - cap) cs ++ [cs.get ⟨cs.length - cap, hne⟩] := by
      rw [hlen2, heq1, List.take_append_of_le_length (by omega)]
      rw [← List.take_concat_get' cs _ hne]
      simp [List.get_eq_getElem]
    rw [hR1, hRtake, hlen2]
    rcases Nat.lt_or_ge cs.length (2 * cap) with h2 | h2
    · -- the secondary does not overflow
      have hz : cs.length - 2 * cap = 0 := by omega
      have hz' : cs.length + 1 - 2 * cap = 0 := by omega
      have hw2len : (List.drop (cs.length - 2 * cap) (List.take (cs.length - cap) cs)
          ++ [cs.get ⟨cs.length - cap, hne⟩]).length ≤ cap := by
        simp [hz, List.length_take]; omega
      rw [if_neg (Nat.not_lt.mpr hw2len), hz, hz', List.drop_zero, List.drop_zero]
    · -- the secondary also evicts its head
      have hw2gt : (List.drop (cs.length - 2 * cap) (List.take (cs.length - cap) cs)
          ++ [cs.get ⟨cs.length - cap, hne⟩]).length > cap := by
        simp [List.length_take]; omega
      rw [if_pos hw2gt]
      have hlt : cs.length - 2 * cap ≤ (List.take (cs.length - cap) cs).length := by
        simp [List.length_take]; omega
      have hLd : List.drop 1 (List.drop (cs.length - 2 * cap)
            (List.take (cs.length - cap) cs) ++ [cs.get ⟨cs.length - cap, hne⟩])
          = List.drop (cs.length - 2 * cap + 1) (List.take (cs.length - cap) cs)
            ++ [cs.get ⟨cs.length - cap, hne⟩] := by
        rw [List.drop_append_of_le_length (by simp [List.length_take]; omega),
          List.drop_drop]
      have hRd : List.drop (cs.length + 1 - 2 * cap)
            (List.take (cs.length - cap) cs ++ [cs.get ⟨cs.length - cap, hne⟩])
          = List.drop (cs.length - 2 * cap + 1) (List.take (cs.length - cap) cs)
            ++ [cs.get ⟨cs.length - cap, hne⟩] := by
        have heq2 : cs.length + 1 - 2 * cap = cs.length - 2 * cap + 1 := by omega
        rw [heq2, List.drop_append_of_le_length (by simp [List.length_take]; omega)]
      rw [hLd, hRd]

/-- From two empty buffers, `addAll` reaches exactly the closed-form state. -/
theorem addAll_eq_closedForm {α : Type} (cap : Nat) (hcap : 1 ≤ cap)
    (cs : List α) : addAll cap cs ([], []) = bufClosedForm cap cs := by
  induction cs using List.reverseRecOn with
  | nil => simp [addAll, bufClosedForm]
  | append_singleton cs c ih =>
      rw [addAll_append_singleton, ih, add_caption_closedForm cap hcap]

theorem primary_closedForm {α : Type} (cap : Nat) (hcap : 1 ≤ cap)
    (cs : List α) :
    (addAll cap cs ([], [])).1 = cs.drop (cs.length - cap) := by
  rw [addAll_eq_closedForm cap hcap]
  rfl

theorem secondary_closedForm {α : Type} (cap : Nat) (hcap : 1 ≤ cap)
    (cs : List α) :
    (addAll cap cs ([], [])).2
      = (cs.take (cs.length - cap)).drop (cs.length - 2 * cap) := by
  rw [addAll_eq_closedForm cap hcap]
  rfl

theorem secondary_append_primary {α : Type} (cap : Nat) (hcap : 1 ≤ cap)
    (cs : List α) :
    (addAll cap cs ([], [])).2 ++ (addAll cap cs ([], [])).1
      = cs.drop (cs.length - 2 * cap) := by
  rw [primary_closedForm cap hcap, secondary_closedForm cap hcap]
  rcases Nat.lt_or_ge cs.length cap with hlt | hge
  · have h1 : cs.length - cap = 0 := by omega
    have h2 : cs.length - 2 * cap = 0 := by omega
    simp [h1, h2]
  · have hidx : cs.length - 2 * cap ≤ (cs.take (cs.length - cap)).length := by
      simp [List.length_take]; omega
    rw [← List.drop_append_of_le_length hidx, List.take_append_drop]

/-- C1: `add_caption` appends the new caption to the tail of the primary
buffer; if the primary then exceeds the capacity its head moves to the tail
of the secondary buffer, and if the secondary in turn exceeds the capacity
its own head is evicted; in particular with capacity 2, adding "A", "B", "C"
to two empty buffers yields primary = ["B", "C"] and secondary = ["A"]. -/
theorem C1_add_caption_overflow_routing :
    (∀ (cap : Nat) (c : String) (p s : List String), p.length < cap →
      add_caption cap c (p, s) = (p ++ [c], s)) ∧
    (∀ (cap : Nat) (c h : String) (t s : List String),
      (h :: t).length = cap → s.length < cap →
      add_caption cap c (h :: t, s) = (t ++ [c], s ++ [h])) ∧
    (∀ (cap : Nat) (c h h₂ : String) (t t₂ : List String),
      (h :: t).length = cap → (h₂ :: t₂).length = cap →
      add_caption cap c (h :: t, h₂ :: t₂) = (t ++ [c], t₂ ++ [h])) ∧
    addAll 2 ["A", "B", "C"] ([], []) = (["B", "C"], ["A"]) := by
  refine ⟨?_, ?_, ?_, rfl⟩
  · intro cap c p s hp
    simp only [add_caption]
    rw [if_neg (by simp; omega)]
  · intro cap c h t s h1 h2
    simp only [add_caption]
    rw [if_pos (by simp at h1 ⊢; omega), if_neg (by simp at h1 ⊢; omega)]
    simp
  · intro cap c h h₂ t t₂ h1 h2
    simp only [add_caption]
    rw [if_pos (by simp at h1 ⊢; omega), if_pos (by simp at h1 h2 ⊢; omega)]
    simp

theorem C1_add_caption_overflow_routing_witness :
    add_caption 2 "C" (["A", "B"], []) = (["B", "C"], ["A"]) :=
  C1_add_caption_overflow_routing.2.1 2 "C" "A" ["B"] [] (by decide) (by decide)

/-- C2: after every sequence of `add_caption` calls starting from two empty
buffers with capacity ≥ 1, the buffers together hold at most `2 * capacity`
captions, each buffer holds at most `capacity`, and (tagging the added
caption occurrences so that they are pairwise distinct) no occurrence is
present in both buffers at once. -/
theorem C2_buffer_invariants {α : Type} (cap : Nat) (cs : List α)
    (hcap : 1 ≤ cap) :
    (addAll cap cs ([], [])).1.length + (addAll cap cs ([], [])).2.length
        ≤ 2 * cap ∧
    (addAll cap cs ([], [])).1.length ≤ cap ∧
    (addAll cap cs ([], [])).2.length ≤ cap ∧
    (cs.Nodup → ∀ x, x ∈ (addAll cap cs ([], [])).1 →
        x ∉ (addAll cap cs ([], [])).2) := by
  have hp := primary_closedForm cap hcap cs
  have hs := secondary_closedForm cap hcap cs
  have hplen : (addAll cap cs ([], [])).1.length = cs.length - (cs.length - cap) := by
    rw [hp, List.length_drop]
  have hslen : (addAll cap cs ([], [])).2.length
      = min (cs.length - cap) cs.length - (cs.length - 2 * cap) := by
    rw [hs, List.length_drop, List.length_take]
  refine ⟨by omega, by omega, by omega, ?_⟩
  intro hnd x hx1
  have happ : ((addAll cap cs ([], [])).2 ++ (addAll cap cs ([], [])).1).Nodup := by
    rw [secondary_append_primary cap hcap]
    exact hnd.sublist (List.drop_sublist _ _)
  have hdisj := (List.nodup_append.mp happ).2.2
  intro hx2
  exact hdisj hx2 hx1

theorem C2_buffer_invariants_witness :
    ¬ (2 : Nat) ∈ (addAll 1 ([0, 1, 2] : List Nat) ([], [])).2 :=
  (C2_buffer_invariants 1 [0, 1, 2] (by decide)).2.2.2 (by decide) 2 (by decide)

/-- C3: the primary buffer plays the role of the single capacity-bounded
caption buffer: for every add sequence it never holds more than `capacity`
entries and afterwards holds exactly the most recently added
`min n capacity` captions in insertion order; with capacity 3 and an empty
buffer, adding "A", "B", "C", "D" leaves ["B", "C", "D"]. -/
theorem C3_single_buffer_retention (cap : Nat) (hcap : 1 ≤ cap) :
    (∀ (α : Type) (cs : List α),
      (addAll cap cs ([], [])).1 = cs.drop (cs.length - cap) ∧
      (addAll cap cs ([], [])).1.length = min cs.length cap) ∧
    (addAll 3 ["A", "B", "C", "D"] ([], [])).1 = ["B", "C", "D"] := by
  refine ⟨fun α cs => ⟨primary_closedForm cap hcap cs, ?_⟩, rfl⟩
  rw [primary_closedForm cap hcap cs, List.length_drop]
  omega

theorem C3_single_buffer_retention_witness :
    (addAll 2 ["A", "B", "C"] ([], []) : BufState String).1
      = (["A", "B", "C"] : List String).drop (3 - 2) :=
  ((C3_single_buffer_retention 2 (by decide)).1 String ["A", "B", "C"]).1

/-- C10: after any sequence of `add_caption` calls from two empty buffers,
secondary ++ primary equals the most recently added
`len secondary + len primary` captions in their original insertion order. -/
theorem C10_cross_buffer_order {α : Type} (cap : Nat) (hcap : 1 ≤ cap)
    (cs : List α) :
    (addAll cap cs ([], [])).2 ++ (addAll cap cs ([], [])).1
      = cs.drop (cs.length -
          ((addAll cap cs ([], [])).2.length + (addAll cap cs ([], [])).1.length)) := by
  have hp := primary_closedForm cap hcap cs
  have hs := secondary_closedForm cap hcap cs
  have hkey : cs.length -
      ((addAll cap cs ([], [])).2.length + (addAll cap cs ([], [])).1.length)
        = cs.length - 2 * cap := by
    rw [hp, hs, List.length_drop, List.length_drop, List.length_take]
    omega
  rw [hkey, secondary_append_primary cap hcap]

theorem C10_cross_buffer_order_witness :
    (addAll 2 ["A", "B", "C", "D", "E"] ([], []) : BufState String).2
        ++ (addAll 2 ["A", "B", "C", "D", "E"] ([], [])).1
      = (["A", "B", "C", "D", "E"] : List String).drop (5 -
          ((addAll 2 (["A", "B", "C", "D", "E"] : List String) ([], [])).2.length
            + (addAll 2 (["A", "B", "C", "D", "E"] : List String) ([], [])).1.length)) :=
  C10_cross_buffer_order 2 (by decide) ["A", "B", "C", "D", "E"]

/-! ## Column layout engine (`DualScreenDisplay._update_single_window`)

The layout maps a caption list onto a `window_width × window_height`
canvas: newest caption in the rightmost column, characters flowing
downward.  The embedding records, instead of pixels, the list of glyph
placements `(char, x, y)` the source would draw, together with a flag
telling whether the `column_x < 20` early-stop `break` was taken. -/

/-- Display settings of `DualScreenDisplay` that the layout reads
(`window_width`, `window_height`, `font_size`, `CHAR_SPACING`,
`COLUMN_WIDTH`, `chars_per_column`). -/
structure LayoutConfig where
  window_width : Nat
  window_height : Nat
  font_size : Nat
  char_spacing : Nat
  column_width : Nat
  chars_per_column : Option Nat
deriving DecidableEq

/-- One drawn character: the glyph, its column x position and its y offset. -/
structure Glyph where
  char : Char
  x : Int
  y : Nat
deriving DecidableEq

/-- Settings from the class constants of `DualScreenDisplay`
(WINDOW_WIDTH 2560, WINDOW_HEIGHT 1440, FONT_SIZE 24, CHAR_SPACING 2,
COLUMN_WIDTH 25) with the default `chars_per_column = None`. -/
def defaultSettings : LayoutConfig :=
  ⟨2560, 1440, 24, 2, 25, none⟩

/-- Embedding of `char_height = font_size + CHAR_SPACING` (line 178). -/
def char_height (cfg : LayoutConfig) : Nat :=
  cfg.font_size + cfg.char_spacing

/-- Embedding of `max_chars_per_column = (window_height - 40) // char_height`
(line 181). -/
def max_chars_per_column (cfg : LayoutConfig) : Nat :=
  (cfg.window_height - 40) / char_height cfg

/-- Embedding of `max_columns = (window_width - 40) // column_width`
(line 190). -/
def max_columns (cfg : LayoutConfig) : Nat :=
  (cfg.window_width - 40) / cfg.column_width

/-- Embedding of
`visible_captions = captions[-max_columns:] if len(captions) > max_columns
else captions` (line 193).  When `max_columns = 0` the Python slice
`captions[-0:]` is `captions[0:]`, i.e. the whole list, so that case is
kept separate. -/
def visible_captions {α : Type} (maxCols : Nat) (cs : List α) : List α :=
  if cs.length > maxCols then
    if maxCols = 0 then cs else cs.drop (cs.length - maxCols)
  else cs

/-- Embedding of `caption_text = caption.replace(" ", "-")` followed by
`chars = list(caption_text)` (lines 202-203). -/
def hyphenate (caption : String) : List Char :=
  caption.data.map (fun ch => if ch = ' ' then '-' else ch)

/-- Embedding of the inner character loop (lines 212-224): character `j`
goes to `char_y = 20 + j * char_height`, and the loop breaks as soon as
`char_y + char_height > window_height - 20`. -/
def draw_column_chars (window_height ch : Nat) (column_x : Int) :
    Nat → List Char → List Glyph
  | _, [] => []
  | j, c :: rest =>
    let char_y := 20 + j * ch
    if char_y + ch > window_height - 20 then []
    else ⟨c, column_x, char_y⟩ :: draw_column_chars window_height ch column_x (j + 1) rest

/-- Embedding of the column loop (lines 200-227): captions are consumed
newest first, caption number `current_column` goes to
`column_x = start_x - current_column * column_width`, and the loop breaks
once `column_x < 20`; the returned flag records whether that break fired. -/
def draw_columns (window_height ch cw : Nat) (start_x : Int) :
    Nat → List String → List Glyph × Bool
  | _, [] => ([], false)
  | current_column, caption :: rest =>
    let column_x : Int := start_x - (current_column : Int) * (cw : Int)
    if column_x < 20 then ([], true)
    else
      let col := draw_column_chars window_height ch column_x 0 (hyphenate caption)
      let next := draw_columns window_height ch cw start_x (current_column + 1) rest
      (col ++ next.1, next.2)

set_option linter.unusedVariables false in
/-- Embedding of `_update_single_window` (lines 169-227): nothing is laid
out for an empty caption list; otherwise `chars_per_column` is computed
(lines 184-187) but never used afterwards, the visible suffix is selected
and the columns are drawn right to left starting at
`start_x = window_width - 20`. -/
def update_single_window (cfg : LayoutConfig) (captions : List String) :
    List Glyph × Bool :=
  if captions.isEmpty then ([], false)
  else
    let chars_per_column :=
      match cfg.chars_per_column with
      | none => max_chars_per_column cfg
      | some n => min n (max_chars_per_column cfg)
    let visible := visible_captions (max_columns cfg) captions
    let start_x : Int := (cfg.window_width : Int) - 20
    draw_columns cfg.window_height (char_height cfg) cfg.column_width start_x 0
      visible.reverse

/-- Spec-side description of one rendered column (spec.md, component 4.2,
step 4): replace spaces with hyphens, place character index `j` at
`y = 20 + j * charHeight`, and keep exactly the characters that do not
cross the bottom margin `window_height - 20`. -/
def spec_column_glyphs (wh ch : Nat) (x : Int) (caption : String) : List Glyph :=
  ((List.enumFrom 0 (hyphenate caption)).takeWhile
      (fun p => 20 + p.1 * ch + ch ≤ wh - 20)).map
    (fun p => ⟨p.2, x, 20 + p.1 * ch⟩)

theorem draw_column_chars_eq_takeWhile (wh ch : Nat) (x : Int) (l : List Char) :
    ∀ j : Nat, draw_column_chars wh ch x j l
      = ((List.enumFrom j l).takeWhile
          (fun p => 20 + p.1 * ch + ch ≤ wh - 20)).map
          (fun p => ⟨p.2, x, 20 + p.1 * ch⟩) := by
  induction l with
  | nil => intro j; rfl
  | cons c rest ih =>
      intro j
      simp only [draw_column_chars, List.enumFrom, List.takeWhile]
      by_cases hcond : 20 + j * ch + ch > wh - 20
      · rw [if_pos hcond]
        have hd : decide (20 + j * ch + ch ≤ wh - 20) = false := by
          simp; omega
        simp [hd]
      · rw [if_neg hcond]
        have hd : decide (20 + j * ch + ch ≤ wh - 20) = true := by
          simp; omega
        simp [hd, ih (j + 1)]

theorem visible_captions_length_le {α : Type} (maxCols : Nat)
    (h : 1 ≤ maxCols) (cs : List α) :
    (visible_captions maxCols cs).length ≤ maxCols := by
  rw [visible_captions]
  split
  · rw [if_neg (by omega)]
    simp [List.length_drop]
    omega
  · omega

theorem draw_columns_no_break (wh ch cw : Nat) (sx : Int) :
    ∀ (l : List String) (col : Nat),
    (∀ k : Nat, k < col + l.length → ¬ sx - (k : Int) * (cw : Int) < 20) →
    (draw_columns wh ch cw sx col l).2 = false := by
  intro l
  induction l with
  | nil => intro col h; rfl
  | cons c rest ih =>
      intro col h
      simp only [draw_columns]
      rw [if_neg (h col (by simp))]
      exact ih (col + 1) (fun k hk => h k (by simp at hk ⊢; omega))

/-- C4: with the default settings (width 2560, height 1440, column width
25, font size 24, char spacing 2) the layout computes `max_columns = 100`
and `max_chars_per_column = 53`, and a caption list of 150 entries has as
visible subsequence exactly its last 100 captions. -/
theorem C4_layout_constants (cs : List String) (hlen : cs.length = 150) :
    max_columns defaultSettings = 100 ∧
    max_chars_per_column defaultSettings = 53 ∧
    visible_captions (max_columns defaultSettings) cs = cs.drop 50 := by
  refine ⟨rfl, rfl, ?_⟩
  show visible_captions 100 cs = cs.drop 50
  rw [visible_captions, hlen]
  norm_num

theorem C4_layout_constants_witness :
    max_columns defaultSettings = 100 ∧
    max_chars_per_column defaultSettings = 53 ∧
    visible_captions (max_columns defaultSettings) (List.replicate 150 "c")
      = (List.replicate 150 "c").drop 50 :=
  C4_layout_constants (List.replicate 150 "c") (by simp)

/-- C5: within a column the caption's spaces are first replaced by hyphens,
character index `j` is drawn at `y = 20 + j * charHeight`, and drawing
stops exactly at the first character that would cross the bottom margin
`window_height - 20`; in particular "a cat sitting" renders as the
13-character column "a-cat-sitting" at `y = 20, 46, 72, ...` for
`charHeight = 24 + 2 = 26`. -/
theorem C5_column_vertical_truncation :
    (∀ (wh ch : Nat) (x : Int) (caption : String),
      draw_column_chars wh ch x 0 (hyphenate caption)
        = spec_column_glyphs wh ch x caption) ∧
    draw_column_chars 1440 26 100 0 (hyphenate "a cat sitting")
      = [⟨'a', 100, 20⟩, ⟨'-', 100, 46⟩, ⟨'c', 100, 72⟩, ⟨'a', 100, 98⟩,
         ⟨'t', 100, 124⟩, ⟨'-', 100, 150⟩, ⟨'s', 100, 176⟩, ⟨'i', 100, 202⟩,
         ⟨'t', 100, 228⟩, ⟨'t', 100, 254⟩, ⟨'i', 100, 280⟩, ⟨'n', 100, 306⟩,
         ⟨'g', 100, 332⟩] :=
  ⟨fun wh ch x caption => draw_column_chars_eq_takeWhile wh ch x (hyphenate caption) 0,
   by decide⟩

/-- C6: the `chars_per_column` option is inert: two runs of the layout
that differ only in that option produce identical glyph placements (and
the same early-stop flag) on every caption sequence and canvas size. -/
theorem C6_chars_per_column_inert (w h fs sp cw : Nat)
    (cpc₁ cpc₂ : Option Nat) (cs : List String) :
    update_single_window ⟨w, h, fs, sp, cw, cpc₁⟩ cs
      = update_single_window ⟨w, h, fs, sp, cw, cpc₂⟩ cs := rfl

/-- C9 as stated is false: with `column_width = 1 ≥ 1` and
`window_width = 40 ≥ 40` we get `max_columns = 0`, the Python slice
`captions[-0:]` keeps every caption, and on two captions the
`column_x < 20` early-stop branch fires. -/
theorem C9_early_stop_fires :
    (1 : Nat) ≤ 1 ∧ (40 : Nat) ≤ 40 ∧
    (update_single_window ⟨40, 1440, 24, 2, 1, none⟩ ["a", "b"]).2 = true :=
  ⟨le_refl 1, le_refl 40, rfl⟩

/-- C9 (amended): whenever `max_columns ≥ 1` — equivalently
`window_width ≥ 40 + column_width`, with `column_width ≥ 1` — every visible
caption is assigned `column_x ≥ 20`, so the early-stop branch never fires;
only the degenerate `max_columns = 0` canvases of the counterexample reach
it. -/
theorem C9_early_stop_unreachable (cfg : LayoutConfig) (cs : List String)
    (hcw : 1 ≤ cfg.column_width)
    (hw : 40 + cfg.column_width ≤ cfg.window_width) :
    (update_single_window cfg cs).2 = false := by
  by_cases hcs : cs.isEmpty
  · simp [update_single_window, hcs]
  · have hmc : 1 ≤ max_columns cfg :=
      (Nat.one_le_div_iff (by omega)).mpr (by omega)
    have hlen : (visible_captions (max_columns cfg) cs).length ≤ max_columns cfg :=
      visible_captions_length_le _ hmc _
    simp only [update_single_window, hcs, if_false]
    apply draw_columns_no_break
    intro k hk
    simp only [Nat.zero_add, List.length_reverse] at hk
    have hk1 : k + 1 ≤ max_columns cfg := by omega
    have h2 : (k + 1) * cfg.column_width ≤ max_columns cfg * cfg.column_width :=
      Nat.mul_le_mul_right _ hk1
    have h3 : max_columns cfg * cfg.column_width ≤ cfg.window_width - 40 :=
      Nat.div_mul_le_self _ _
    have h4 : k * cfg.column_width + cfg.column_width ≤ cfg.window_width - 40 := by
      calc k * cfg.column_width + cfg.column_width
          = (k + 1) * cfg.column_width := by ring
        _ ≤ max_columns cfg * cfg.column_width := h2
        _ ≤ cfg.window_width - 40 := h3
    have h5 : k * cfg.column_width + 40 ≤ cfg.window_width := by omega
    omega

theorem C9_early_stop_unreachable_witness :
    (update_single_window defaultSettings ["hello world"]).2 = false :=
  C9_early_stop_unreachable defaultSettings ["hello world"] (by decide) (by decide)

/-! ## Caption generation (`BLIPModelManager.generate_caption`)

The captioning call is external; the embedding keeps its control flow:
the truthiness of the `processor` and `model` fields, and the outcome of
the `try` body as an `Except` — `ok` carries the decoded caption, `error`
carries the message of whatever exception was raised inside. -/

/-- Embedding of `BLIPModelManager.generate_caption` (blip_model.py,
lines 57-86).  The Lean function is total: every branch returns caption
text, mirroring that the Python function catches every exception of its
`try` body and never propagates one to the caller. -/
def generate_caption (processor model : Bool)
    (attempt : Except String String) : String :=
  if processor = false || model = false then "Error: Model not loaded"
  else
    match attempt with
    | Except.ok caption => caption
    | Except.error e => "Error generating caption: " ++ e

/-- C8: `generate_caption` surfaces every failure as text instead of
throwing: with processor or model missing it returns
"Error: Model not loaded"; when the inner captioning code raises `e` it
returns `"Error generating caption: " ++ e`, a string beginning with
"Error generating caption:"; and on success it returns the caption
unchanged. -/
theorem C8_generate_caption_never_throws (processor model : Bool)
    (attempt : Except String String) :
    (processor = false ∨ model = false →
      generate_caption processor model attempt = "Error: Model not loaded") ∧
    (∀ e, attempt = Except.error e →
      generate_caption true true attempt = "Error generating caption: " ++ e) ∧
    (∀ c, attempt = Except.ok c → generate_caption true true attempt = c) := by
  refine ⟨fun h => ?_, fun e he => ?_, fun c hc => ?_⟩
  · rcases h with h | h <;> simp [generate_caption, h]
  · simp [generate_caption, he]
  · simp [generate_caption, hc]

theorem C8_generate_caption_never_throws_witness :
    generate_caption false true (Except.ok "img") = "Error: Model not loaded" ∧
    generate_caption true true (Except.error "boom")
      = "Error generating caption: " ++ "boom" :=
  ⟨(C8_generate_caption_never_throws false true (Except.ok "img")).1 (Or.inl rfl),
   (C8_generate_caption_never_throws true true (Except.error "boom")).2.1
     "boom" rfl⟩

/-! ## Capture loop and cleanup (`CaptionEngine.run` and the entry points)

The loop is driven by a finite schedule of external inputs.  Each event
says whether `read_frame` succeeded and whether the render sink reported
the quit key for that iteration.  What the embedding observes is how many
frames were displayed, how often the cleanup path ran, and why the loop
stopped. -/

/-- External inputs of one iteration of `CaptionEngine.run`. -/
structure LoopEvent where
  readOk : Bool
  quit : Bool
deriving DecidableEq

/-- Why the capture loop stopped. -/
inductive StopReason
  | frameReadFailure
  | userQuit
deriving DecidableEq

/-- Observable outcome of one call to `CaptionEngine.run`. -/
structure RunOutcome where
  framesDisplayed : Nat
  cleanupCalls : Nat
  reason : StopReason
deriving DecidableEq

/-- Embedding of `CaptionEngine.run` (caption_engine.py, lines 62-124):
a failed `read_frame` breaks out of the loop at once, before the frame is
displayed; a quit signal breaks after the frame was displayed; in either
case the `finally` block then invokes `self.cleanup()` exactly once.
`none` models a schedule exhausted with the loop still running, in which
case `run` has not returned and no cleanup has happened yet. -/
def run : List LoopEvent → Option RunOutcome
  | [] => none
  | e :: rest =>
    if e.readOk = false then some ⟨0, 1, StopReason.frameReadFailure⟩
    else if e.quit then some ⟨1, 1, StopReason.userQuit⟩
    else (run rest).map
      (fun o => ⟨o.framesDisplayed + 1, o.cleanupCalls, o.reason⟩)

/-- Embedding of `dual_screen_demo.main` (dual_screen_demo.py,
lines 24-33): when initialization fails, `main` returns before the `try`
block, so no cleanup runs; otherwise its own `finally` invokes
`engine.cleanup()` once more on top of whatever `run` already did. -/
def demo_main_cleanupCalls (initOk : Bool) (events : List LoopEvent) :
    Option Nat :=
  if initOk then (run events).map (fun o => o.cleanupCalls + 1)
  else some 0

/-- Embedding of `blip_camera_main.main` (blip_camera_main.py,
lines 86-94): it has no `finally` of its own, so the cleanup path runs
only inside `run`. -/
def blip_main_cleanupCalls (initOk : Bool) (events : List LoopEvent) :
    Option Nat :=
  if initOk then (run events).map (fun o => o.cleanupCalls)
  else some 0

theorem run_frame_failure (q : Bool) (rest : List LoopEvent) :
    ∀ pre : List LoopEvent, (∀ e ∈ pre, e.readOk = true ∧ e.quit = false) →
    run (pre ++ LoopEvent.mk false q :: rest)
      = some ⟨pre.length, 1, StopReason.frameReadFailure⟩ := by
  intro pre
  induction pre with
  | nil => intro _; rfl
  | cons e pre ih =>
      intro hpre
      obtain ⟨hr, hq⟩ := hpre e (List.mem_cons_self e pre)
      have htail := ih (fun x hx => hpre x (List.mem_cons_of_mem e hx))
      simp [run, hr, hq, htail]

/-- C7 as stated is false for the dual-screen demo entry point: when the
very first frame read fails, the `finally` of `CaptionEngine.run`
performs one cleanup and the `finally` of `dual_screen_demo.main`
performs a second one, so that program run invokes the cleanup path
twice, not exactly once. -/
theorem C7_demo_cleans_up_twice :
    demo_main_cleanupCalls true [⟨false, false⟩] = some 2 ∧
    demo_main_cleanupCalls true [⟨false, false⟩] ≠ some 1 :=
  ⟨rfl, by decide⟩

/-- C7 (amended): a failed frame read terminates the capture loop
immediately — the outcome is `frameReadFailure` after exactly the
preceding successful frames, whatever events were still scheduled — and
`CaptionEngine.run` invokes the cleanup path exactly once; under
`blip_camera_main` that is the only invocation, while the dual-screen
demo's `main` adds a second one in its own `finally`. -/
theorem C7_frame_failure_cleanup (q : Bool) (pre rest : List LoopEvent)
    (hpre : ∀ e ∈ pre, e.readOk = true ∧ e.quit = false) :
    run (pre ++ LoopEvent.mk false q :: rest)
        = some ⟨pre.length, 1, StopReason.frameReadFailure⟩ ∧
    blip_main_cleanupCalls true (pre ++ LoopEvent.mk false q :: rest)
        = some 1 ∧
    demo_main_cleanupCalls true (pre ++ LoopEvent.mk false q :: rest)
        = some 2 := by
  have hrun := run_frame_failure q rest pre hpre
  exact ⟨hrun, by simp [blip_main_cleanupCalls, hrun],
    by simp [demo_main_cleanupCalls, hrun]⟩

theorem C7_frame_failure_cleanup_witness :
    run [⟨true, false⟩, ⟨false, false⟩, ⟨true, true⟩]
        = some ⟨1, 1, StopReason.frameReadFailure⟩ ∧
    blip_main_cleanupCalls true [⟨true, false⟩, ⟨false, false⟩, ⟨true, true⟩]
        = some 1 ∧
    demo_main_cleanupCalls true [⟨true, false⟩, ⟨false, false⟩, ⟨true, true⟩]
        = some 2 :=
  C7_frame_failure_cleanup false [⟨true, false⟩] [⟨true, true⟩] (by decide)

end KsanaVision
